import Mathlib

/-
Verification of the layout placement engine and mesh-normalization pipeline
of the DesignTool repository (src/Page3.py), as a shallow embedding in Lean.

Embedding conventions:
- Python floats are modelled as rationals (ℚ).
- `np.random.uniform(0, hi)` is modelled as `hi * u` where `u` is a unit
  sample supplied by an explicit sample source (numpy computes
  `low + (high - low) * u` with `u ∈ [0,1)`, also when `hi < 0`).
  The global random stream is abstracted as a function giving the pair of
  unit samples used at a given (item index, attempt index).
- The predictive model is abstracted as an optional inference function
  (absent model = `none`, mirroring the module-level `model = None`
  fallback); an inference call that raises is modelled as `Except.error`.
  `generate_layouts` propagates such an error, mirroring the
  `except ... raise` block of the source.
-/

namespace DesignTool

/-- Room dimensions, the `room_dimensions` dict of Page3.py (width, length,
height), after the `float(...)` conversions at the top of
`generate_layouts`. -/
structure Room where
  width : ℚ
  length : ℚ
  height : ℚ
deriving DecidableEq

/-- A furniture position, the `{"x": ..., "y": ...}` dict (lower-left corner
of the footprint in room-plane coordinates). -/
structure Pos where
  x : ℚ
  y : ℚ
deriving DecidableEq

/-- Furniture dimensions, the `{"width": ..., "depth": ..., "height": ...}`
dict returned by `get_furniture_dimensions`. -/
structure Dims where
  width : ℚ
  depth : ℚ
  height : ℚ
deriving DecidableEq

/-- A placed furniture item, the `new_item` dict built inside
`generate_layouts` (type, position, rotation — always 0 —, dimensions). -/
structure Item where
  type : String
  position : Pos
  rot : ℚ
  dimensions : Dims
deriving DecidableEq

/-- The `dimensions` dict literal inside `get_furniture_dimensions`
(Page3.py lines 225-240), with the source's decimal literals written as
rationals (6.67 = 667/100, 2.5 = 5/2, 1.5 = 3/2, 0.1 = 1/10). -/
def furnitureCatalog : List (String × Dims) :=
  [("Bed", ⟨667/100, 5, 5/2⟩),
   ("Sofa", ⟨6, 3, 3⟩),
   ("TV Stand", ⟨5, 3/2, 2⟩),
   ("Coffee Table", ⟨4, 2, 3/2⟩),
   ("Nightstand", ⟨2, 2, 2⟩),
   ("Dresser", ⟨4, 2, 4⟩),
   ("Wardrobe", ⟨4, 2, 7⟩),
   ("Armchair", ⟨3, 3, 3⟩),
   ("Toilet", ⟨5/2, 2, 5/2⟩),
   ("Sink", ⟨2, 3/2, 5/2⟩),
   ("Shower", ⟨3, 3, 7⟩),
   ("Bathtub", ⟨5, 5/2, 2⟩),
   ("Door", ⟨3, 1/10, 7⟩),
   ("Window", ⟨4, 1/10, 4⟩)]

/-- `get_furniture_dimensions` (Page3.py lines 223-241):
`dimensions.get(furniture_type, {"width": 2, "depth": 2, "height": 2})`. -/
def get_furniture_dimensions (furniture_type : String) : Dims :=
  (furnitureCatalog.lookup furniture_type).getD ⟨2, 2, 2⟩

/-- `check_collision` (Page3.py lines 243-249):
`not (x1 + w1 <= x2 or x2 + w2 <= x1 or y1 + d1 <= y2 or y2 + d2 <= y1)`. -/
def check_collision (item1 item2 : Item) : Bool :=
  let x1 := item1.position.x
  let y1 := item1.position.y
  let w1 := item1.dimensions.width
  let d1 := item1.dimensions.depth
  let x2 := item2.position.x
  let y2 := item2.position.y
  let w2 := item2.dimensions.width
  let d2 := item2.dimensions.depth
  decide (¬ (x1 + w1 ≤ x2 ∨ x2 + w2 ≤ x1 ∨ y1 + d1 ≤ y2 ∨ y2 + d2 ≤ y1))

/-- `check_collision` is symmetric in its two arguments (shared helper). -/
theorem check_collision_comm (a b : Item) :
    check_collision a b = check_collision b a := by
  simp only [check_collision]
  exact decide_eq_decide.mpr (by tauto)

/-- A list lookup misses every key that is not among the stored keys
(shared helper for the catalog default). -/
theorem lookup_eq_none_of_not_mem_keys (l : List (String × Dims)) (t : String)
    (h : t ∉ l.map Prod.fst) : l.lookup t = none := by
  induction l with
  | nil => rfl
  | cons p rest ih =>
    simp only [List.map_cons, List.mem_cons, not_or] at h
    have hne : (t == p.1) = false := beq_eq_false_iff_ne.mpr h.1
    simpa [List.lookup, hne] using ih h.2

/-- C5: `check_collision a b` is true iff the two axis-aligned footprints
intersect with non-zero length on both axes, i.e. iff
`NOT (a.x + a.w <= b.x OR b.x + b.w <= a.x OR a.y + a.d <= b.y OR
b.y + b.d <= a.y)`; in particular two unit squares that share the edge
`x = 1` do not collide. -/
theorem C5_check_collision_iff :
    (∀ a b : Item,
      check_collision a b = true ↔
        ¬ (a.position.x + a.dimensions.width ≤ b.position.x ∨
           b.position.x + b.dimensions.width ≤ a.position.x ∨
           a.position.y + a.dimensions.depth ≤ b.position.y ∨
           b.position.y + b.dimensions.depth ≤ a.position.y)) ∧
    check_collision ⟨"A", ⟨0, 0⟩, 0, ⟨1, 1, 1⟩⟩ ⟨"B", ⟨1, 0⟩, 0, ⟨1, 1, 1⟩⟩
      = false := by
  constructor
  · intro a b
    simp only [check_collision]
    exact decide_eq_true_iff
  · simp only [check_collision, decide_eq_false_iff_not, not_not]
    norm_num

/-- C10: `check_collision` is symmetric: swapping the two items gives the
same result. -/
theorem C10_check_collision_symm (a b : Item) :
    check_collision a b = check_collision b a :=
  check_collision_comm a b

/-- C9: `get_furniture_dimensions` is total: every furniture type name not
among the catalog keys gets the fixed default width = depth = height = 2,
and every catalogued name gets that type's fixed entry. -/
theorem C9_furniture_dimensions_total :
    (∀ t : String, t ∉ furnitureCatalog.map Prod.fst →
        get_furniture_dimensions t = ⟨2, 2, 2⟩) ∧
    (∀ p ∈ furnitureCatalog, get_furniture_dimensions p.1 = p.2) := by
  constructor
  · intro t ht
    simp [get_furniture_dimensions, lookup_eq_none_of_not_mem_keys _ t ht]
  · simp [furnitureCatalog, get_furniture_dimensions, List.lookup]

/-- C9 witness: the uncatalogued name "Piano" gets the default dimensions,
and "Bed" gets its catalog entry. -/
theorem C9_furniture_dimensions_total_witness :
    get_furniture_dimensions "Piano" = ⟨2, 2, 2⟩ ∧
    get_furniture_dimensions "Bed" = ⟨667/100, 5, 5/2⟩ :=
  ⟨C9_furniture_dimensions_total.1 "Piano" (by decide),
   C9_furniture_dimensions_total.2 ("Bed", ⟨667/100, 5, 5/2⟩)
     (by simp [furnitureCatalog])⟩

/-- The per-item feature row built for the model (Page3.py line 263):
`[room_width / 20, room_length / 25, room_height / 10, 0, 0, 0, 0]`. -/
def roomFeatures (room : Room) : List ℚ :=
  [room.width / 20, room.length / 25, room.height / 10, 0, 0, 0, 0]

/-- The candidate position for one placement attempt of `generate_layouts`
(Page3.py lines 275-280).  At attempt 0, when predictions exist, the hint is
scaled into the room and clamped:
`max(0, min(pred_x * room_width, room_width - width))` (and likewise for y);
otherwise `np.random.uniform(0, room_width - width)`, modelled as
`(room_width - width) * u` for the attempt's unit sample `u`. -/
def attemptPos (roomW roomL : ℚ) (dims : Dims) (hint : Option (ℚ × ℚ))
    (rand : ℕ → ℚ × ℚ) (attempt : ℕ) : ℚ × ℚ :=
  match attempt, hint with
  | 0, some h =>
    (max 0 (min (h.1 * roomW) (roomW - dims.width)),
     max 0 (min (h.2 * roomL) (roomL - dims.depth)))
  | n, _ =>
    ((roomW - dims.width) * (rand n).1, (roomL - dims.depth) * (rand n).2)

/-- The `new_item` dict built at one attempt (Page3.py lines 282-287):
type, candidate position, rotation 0, and the catalog dimensions. -/
def candidateItem (roomW roomL : ℚ) (ftype : String) (dims : Dims)
    (hint : Option (ℚ × ℚ)) (rand : ℕ → ℚ × ℚ) (attempt : ℕ) : Item :=
  let p := attemptPos roomW roomL dims hint rand attempt
  ⟨ftype, ⟨p.1, p.2⟩, 0, dims⟩

/-- The `while attempts < max_attempts and not placed` loop of
`generate_layouts` (Page3.py lines 274-299) for one furniture item:
each iteration builds a candidate, tests it against every committed item
(first hit short-circuits, as in the `for existing_item in layouts` loop),
commits it on success and otherwise increments the attempt counter.
`remaining` counts the attempts still allowed (initially 50); `none` is the
unplaced outcome after the budget is exhausted. -/
def placeItem (roomW roomL : ℚ) (ftype : String) (dims : Dims)
    (hint : Option (ℚ × ℚ)) (rand : ℕ → ℚ × ℚ) (layouts : List Item) :
    ℕ → ℕ → Option Item
  | _, 0 => none
  | attempt, remaining + 1 =>
    let newItem := candidateItem roomW roomL ftype dims hint rand attempt
    if layouts.any (fun e => check_collision newItem e) then
      placeItem roomW roomL ftype dims hint rand layouts (attempt + 1) remaining
    else
      some newItem

/-- The `for i, furniture in enumerate(selected_furniture)` loop of
`generate_layouts` (Page3.py lines 269-302): each item is looked up in the
catalog, given the prediction row `predictions[i]` when predictions exist,
and appended to `layouts` when placed; an unplaced item only triggers a
printed warning and the loop continues. -/
def generateLoop (roomW roomL : ℚ) (preds : Option (ℕ → ℚ × ℚ))
    (rand : ℕ → ℕ → ℚ × ℚ) : List String → ℕ → List Item → List Item
  | [], _, layouts => layouts
  | f :: rest, i, layouts =>
    let dims := get_furniture_dimensions f
    let hint := preds.map (fun p => p i)
    match placeItem roomW roomL f dims hint (rand i) layouts 0 50 with
    | some it => generateLoop roomW roomL preds rand rest (i + 1) (layouts ++ [it])
    | none => generateLoop roomW roomL preds rand rest (i + 1) layouts

/-- `generate_layouts` (Page3.py lines 251-308).  The loaded model is
`none` when the module-level load failed (`model = None`), otherwise an
inference function from the feature matrix `X`; an inference call that
raises is an `Except.error` outcome, which the source's
`except Exception: ... raise` block re-raises out of the call, modelled as
the whole call returning `Except.error`.  The per-attempt uniform samples
are supplied by `rand` (item index, attempt index). -/
def generate_layouts (room : Room) (selected_furniture : List String)
    (model : Option (List (List ℚ) → Except Unit (ℕ → ℚ × ℚ)))
    (rand : ℕ → ℕ → ℚ × ℚ) : Except Unit (List Item) :=
  let X := selected_furniture.map (fun _ => roomFeatures room)
  match model with
  | none =>
    .ok (generateLoop room.width room.length none rand selected_furniture 0 [])
  | some predict =>
    match predict X with
    | .error e => .error e
    | .ok preds =>
      .ok (generateLoop room.width room.length (some preds) rand
        selected_furniture 0 [])

/-- A committed item never collides with any already-committed item
(shared helper): `placeItem` only returns a candidate that passed the
collision scan over the whole current layout. -/
theorem placeItem_no_collision (roomW roomL : ℚ) (ftype : String)
    (dims : Dims) (hint : Option (ℚ × ℚ)) (rand : ℕ → ℚ × ℚ)
    (layouts : List Item) :
    ∀ (attempt remaining : ℕ) (it : Item),
      placeItem roomW roomL ftype dims hint rand layouts attempt remaining
        = some it →
      ∀ e ∈ layouts, check_collision it e = false := by
  intro attempt remaining
  induction remaining generalizing attempt with
  | zero => intro it h; simp [placeItem] at h
  | succ n ih =>
    intro it h e he
    rw [placeItem] at h
    by_cases hc :
        (layouts.any fun e =>
          check_collision (candidateItem roomW roomL ftype dims hint rand attempt) e)
        = true
    · rw [if_pos hc] at h
      exact ih (attempt + 1) it h e he
    · rw [if_neg hc] at h
      have hit : candidateItem roomW roomL ftype dims hint rand attempt = it :=
        Option.some.inj h
      have hfalse := eq_false_of_ne_true hc
      rw [List.any_eq_false] at hfalse
      have := hfalse e he
      rw [hit] at this
      exact eq_false_of_ne_true this

/-- The generation loop preserves pairwise non-collision of the committed
layout (shared helper). -/
theorem generateLoop_pairwise (roomW roomL : ℚ)
    (preds : Option (ℕ → ℚ × ℚ)) (rand : ℕ → ℕ → ℚ × ℚ) :
    ∀ (furniture : List String) (i : ℕ) (layouts : List Item),
      layouts.Pairwise (fun a b => check_collision a b = false) →
      (generateLoop roomW roomL preds rand furniture i layouts).Pairwise
        (fun a b => check_collision a b = false) := by
  intro furniture
  induction furniture with
  | nil => intro i layouts h; simpa [generateLoop] using h
  | cons f rest ih =>
    intro i layouts h
    rw [generateLoop]
    cases hp : placeItem roomW roomL f (get_furniture_dimensions f)
        (preds.map fun p => p i) (rand i) layouts 0 50 with
    | none => simpa [hp] using ih (i + 1) layouts h
    | some it =>
      simp only [hp]
      apply ih
      rw [List.pairwise_append]
      refine ⟨h, List.pairwise_singleton _ _, ?_⟩
      intro a ha b hb
      rw [List.mem_singleton] at hb
      subst hb
      rw [check_collision_comm]
      exact placeItem_no_collision roomW roomL f _ _ _ layouts 0 50 b hp a ha

/-- C1: every layout returned by `generate_layouts` is pairwise
non-overlapping under the collision test: for all distinct indices i, j of
the returned layout, `check_collision` on the two items is false. -/
theorem C1_layout_pairwise_no_collision (room : Room)
    (selected_furniture : List String)
    (model : Option (List (List ℚ) → Except Unit (ℕ → ℚ × ℚ)))
    (rand : ℕ → ℕ → ℚ × ℚ) (layout : List Item)
    (h : generate_layouts room selected_furniture model rand = .ok layout) :
    ∀ i j : Fin layout.length, i ≠ j →
      check_collision (layout.get i) (layout.get j) = false := by
  have hpw : layout.Pairwise (fun a b => check_collision a b = false) := by
    have base :
        (List.Pairwise (fun a b => check_collision a b = false) ([] : List Item)) :=
      List.Pairwise.nil
    cases hm : model with
    | none =>
      rw [generate_layouts.eq_def, hm] at h
      dsimp only at h
      simp only [Except.ok.injEq] at h
      rw [← h]
      exact generateLoop_pairwise _ _ _ _ _ 0 [] base
    | some predict =>
      rw [generate_layouts.eq_def, hm] at h
      dsimp only at h
      cases hpred : predict (selected_furniture.map fun _ => roomFeatures room) with
      | error e => rw [hpred] at h; exact absurd h (by simp)
      | ok preds =>
        rw [hpred] at h
        simp only [Except.ok.injEq] at h
        rw [← h]
        exact generateLoop_pairwise _ _ _ _ _ 0 [] base
  intro i j hij
  rcases lt_trichotomy i j with hlt | heq | hgt
  · exact List.pairwise_iff_get.mp hpw i j hlt
  · exact absurd heq hij
  · rw [check_collision_comm]
    exact List.pairwise_iff_get.mp hpw j i hgt

/-- C1 witness: a concrete run (room 10×10×10, two uncatalogued items of
default 2×2×2 dimensions, no model, unit samples 0 for the first item and
1/2 for the second) returns the two-item layout, and the claim
instantiated at its two distinct indices gives non-collision of the two
placed items. -/
theorem C1_layout_pairwise_no_collision_witness :
    check_collision ⟨"Box1", ⟨0, 0⟩, 0, ⟨2, 2, 2⟩⟩
      ⟨"Box2", ⟨4, 4⟩, 0, ⟨2, 2, 2⟩⟩ = false :=
  C1_layout_pairwise_no_collision ⟨10, 10, 10⟩ ["Box1", "Box2"] none
    (fun i _ => if i = 0 then (0, 0) else (1/2, 1/2))
    [⟨"Box1", ⟨0, 0⟩, 0, ⟨2, 2, 2⟩⟩, ⟨"Box2", ⟨4, 4⟩, 0, ⟨2, 2, 2⟩⟩]
    (by
      have h1 : get_furniture_dimensions "Box1" = ⟨2, 2, 2⟩ := by
        simp [get_furniture_dimensions, furnitureCatalog, List.lookup]
      have h2 : get_furniture_dimensions "Box2" = ⟨2, 2, 2⟩ := by
        simp [get_furniture_dimensions, furnitureCatalog, List.lookup]
      simp [generate_layouts, generateLoop, placeItem, candidateItem,
        attemptPos, check_collision, h1, h2]
      norm_num)
    ⟨0, by norm_num⟩ ⟨1, by norm_num⟩ (by decide)

/-- C2 (failing run): in the 4×4×8 room with furniture [Bed] and no model,
unit samples 1/2 make `np.random.uniform(0, 4 - 6.67)` yield
x = (4 - 667/100) * 1/2 = -267/200 < 0; the Bed is committed there (the
layout is empty, so no collision), so the returned layout holds an item
whose x-coordinate is negative — outside the room. -/
theorem C2_placed_item_outside_room :
    generate_layouts ⟨4, 4, 8⟩ ["Bed"] none (fun _ _ => (1/2, 1/2)) =
      .ok [⟨"Bed", ⟨-267/200, -1/2⟩, 0, ⟨667/100, 5, 5/2⟩⟩] ∧
    (-267/200 : ℚ) < 0 := by
  have hb : get_furniture_dimensions "Bed" = ⟨667/100, 5, 5/2⟩ := by
    simp [get_furniture_dimensions, furnitureCatalog, List.lookup]
  constructor
  · simp [generate_layouts, generateLoop, placeItem, candidateItem,
      attemptPos, check_collision, hb]
    norm_num
  · norm_num

/-- C3 (failing run): the Bed is wider (6.67) than the 4×4×8 room, yet the
code does not record it as unplaced: on attempt 0 its (out-of-room)
candidate collides with nothing, so it is committed and appears in the
returned layout. -/
theorem C3_oversized_item_is_committed :
    generate_layouts ⟨4, 4, 8⟩ ["Bed"] none (fun _ _ => (1/3, 1/3)) =
      .ok [⟨"Bed", ⟨-89/100, -1/3⟩, 0, ⟨667/100, 5, 5/2⟩⟩] := by
  have hb : get_furniture_dimensions "Bed" = ⟨667/100, 5, 5/2⟩ := by
    simp [get_furniture_dimensions, furnitureCatalog, List.lookup]
  simp [generate_layouts, generateLoop, placeItem, candidateItem,
    attemptPos, check_collision, hb]
  norm_num

/-- C4 (divergence run): an absent model (`model = None`) degrades to pure
randomized placement and the call returns a layout, but a model whose
inference call raises makes `generate_layouts` re-raise: the call aborts
with the error instead of falling back to randomized placement. -/
theorem C4_inference_failure_aborts :
    generate_layouts ⟨10, 10, 8⟩ ["Bed"] none (fun _ _ => (1/2, 1/2)) =
      .ok [⟨"Bed", ⟨333/200, 5/2⟩, 0, ⟨667/100, 5, 5/2⟩⟩] ∧
    generate_layouts ⟨10, 10, 8⟩ ["Bed"] (some fun _ => .error ())
      (fun _ _ => (1/2, 1/2)) = .error () := by
  have hb : get_furniture_dimensions "Bed" = ⟨667/100, 5, 5/2⟩ := by
    simp [get_furniture_dimensions, furnitureCatalog, List.lookup]
  constructor
  · simp [generate_layouts, generateLoop, placeItem, candidateItem,
      attemptPos, check_collision, hb]
    norm_num
  · rfl

/-- Minimum of a list of rationals (0 for the empty list); the per-axis
minimum of `trimesh`'s `bounds[0]`. -/
def listMin : List ℚ → ℚ
  | [] => 0
  | x :: xs => xs.foldl min x

/-- Maximum of a list of rationals (0 for the empty list); the per-axis
maximum of `trimesh`'s `bounds[1]`. -/
def listMax : List ℚ → ℚ
  | [] => 0
  | x :: xs => xs.foldl max x

/-- A 3D mesh as the engine consumes it (spec §3): a list of vertex
positions and a list of triangular faces (vertex-index triples). -/
structure Mesh where
  vertices : List (ℚ × ℚ × ℚ)
  faces : List (ℕ × ℕ × ℕ)
deriving DecidableEq

/-- The x-coordinates of a mesh's vertices. -/
def meshXs (m : Mesh) : List ℚ := m.vertices.map (fun v => v.1)

/-- The y-coordinates of a mesh's vertices. -/
def meshYs (m : Mesh) : List ℚ := m.vertices.map (fun v => v.2.1)

/-- The z-coordinates of a mesh's vertices. -/
def meshZs (m : Mesh) : List ℚ := m.vertices.map (fun v => v.2.2)

/-- `mesh.extents` of trimesh: axis-aligned bounding-box extents,
max minus min per axis. -/
def extents (m : Mesh) : ℚ × ℚ × ℚ :=
  (listMax (meshXs m) - listMin (meshXs m),
   listMax (meshYs m) - listMin (meshYs m),
   listMax (meshZs m) - listMin (meshZs m))

/-- The minimum corner of a mesh's axis-aligned bounding box
(`mesh.bounds[0]` of trimesh). -/
def boundsMin (m : Mesh) : ℚ × ℚ × ℚ :=
  (listMin (meshXs m), listMin (meshYs m), listMin (meshZs m))

/-- `calculate_scale_factor` (Page3.py lines 310-316):
`min(width_scale, depth_scale, height_scale)` of the three per-axis
target/extent ratios. -/
def calculate_scale_factor (mesh : Mesh) (target_dims : Dims) : ℚ :=
  let current_dims := extents mesh
  let width_scale := target_dims.width / current_dims.1
  let depth_scale := target_dims.depth / current_dims.2.1
  let height_scale := target_dims.height / current_dims.2.2
  min width_scale (min depth_scale height_scale)

/-- `apply_transform(trimesh.transformations.scale_matrix(s))` (Page3.py
line 451): uniform scaling about the origin, multiplying every vertex by
`s`. -/
def applyScale (s : ℚ) (m : Mesh) : Mesh :=
  ⟨m.vertices.map (fun v => (s * v.1, s * v.2.1, s * v.2.2)), m.faces⟩

/-- `apply_translation([tx, ty, tz])` (Page3.py lines 454-458): adds the
translation vector to every vertex. -/
def applyTranslation (t : ℚ × ℚ × ℚ) (m : Mesh) : Mesh :=
  ⟨m.vertices.map (fun v => (v.1 + t.1, v.2.1 + t.2.1, v.2.2 + t.2.2)),
   m.faces⟩

/-- The scale-and-position value computed for one furniture item in
`visualize_layouts_3d` (Page3.py lines 449-458): scale the mesh by
`calculate_scale_factor`, then translate by the vector
`[position.x, position.y, 0]`. -/
def scaleAndPosition (mesh : Mesh) (dims : Dims) (p : Pos) : Mesh :=
  applyTranslation (p.x, p.y, 0) (applyScale (calculate_scale_factor mesh dims) mesh)

/-- Folding `max` over a uniformly scaled list scales the fold
(shared helper). -/
theorem foldl_max_map_mul (s : ℚ) (hs : 0 ≤ s) (l : List ℚ) :
    ∀ a : ℚ, (l.map (fun x => s * x)).foldl max (s * a) = s * l.foldl max a := by
  induction l with
  | nil => intro a; rfl
  | cons x xs ih =>
    intro a
    simp only [List.map_cons, List.foldl_cons]
    rw [← mul_max_of_nonneg a x hs]
    exact ih (max a x)

/-- Folding `min` over a uniformly scaled list scales the fold
(shared helper). -/
theorem foldl_min_map_mul (s : ℚ) (hs : 0 ≤ s) (l : List ℚ) :
    ∀ a : ℚ, (l.map (fun x => s * x)).foldl min (s * a) = s * l.foldl min a := by
  induction l with
  | nil => intro a; rfl
  | cons x xs ih =>
    intro a
    simp only [List.map_cons, List.foldl_cons]
    rw [← mul_min_of_nonneg a x hs]
    exact ih (min a x)

/-- `listMax` of a uniformly scaled list (shared helper). -/
theorem listMax_map_mul (s : ℚ) (hs : 0 ≤ s) (l : List ℚ) :
    listMax (l.map (fun x => s * x)) = s * listMax l := by
  cases l with
  | nil => simp [listMax]
  | cons x xs => simpa [listMax] using foldl_max_map_mul s hs xs x

/-- `listMin` of a uniformly scaled list (shared helper). -/
theorem listMin_map_mul (s : ℚ) (hs : 0 ≤ s) (l : List ℚ) :
    listMin (l.map (fun x => s * x)) = s * listMin l := by
  cases l with
  | nil => simp [listMin]
  | cons x xs => simpa [listMin] using foldl_min_map_mul s hs xs x

/-- Folding `min` over a translated list translates the fold
(shared helper). -/
theorem foldl_min_map_add (t : ℚ) (l : List ℚ) :
    ∀ a : ℚ, (l.map (fun x => x + t)).foldl min (a + t) = l.foldl min a + t := by
  induction l with
  | nil => intro a; rfl
  | cons x xs ih =>
    intro a
    simp only [List.map_cons, List.foldl_cons]
    rw [min_add_add_right]
    exact ih (min a x)

/-- `listMin` of a translated nonempty list (shared helper). -/
theorem listMin_map_add (t : ℚ) (l : List ℚ) (h : l ≠ []) :
    listMin (l.map (fun x => x + t)) = listMin l + t := by
  cases l with
  | nil => exact absurd rfl h
  | cons x xs => simpa [listMin] using foldl_min_map_add t xs x

/-- x-coordinates of a scaled mesh (shared helper). -/
theorem meshXs_applyScale (s : ℚ) (m : Mesh) :
    meshXs (applyScale s m) = (meshXs m).map (fun x => s * x) := by
  simp [meshXs, applyScale, List.map_map, Function.comp]

/-- y-coordinates of a scaled mesh (shared helper). -/
theorem meshYs_applyScale (s : ℚ) (m : Mesh) :
    meshYs (applyScale s m) = (meshYs m).map (fun x => s * x) := by
  simp [meshYs, applyScale, List.map_map, Function.comp]

/-- z-coordinates of a scaled mesh (shared helper). -/
theorem meshZs_applyScale (s : ℚ) (m : Mesh) :
    meshZs (applyScale s m) = (meshZs m).map (fun x => s * x) := by
  simp [meshZs, applyScale, List.map_map, Function.comp]

/-- Extents of a mesh scaled by a nonnegative factor (shared helper). -/
theorem extents_applyScale (s : ℚ) (hs : 0 ≤ s) (m : Mesh) :
    extents (applyScale s m) =
      (s * (extents m).1, s * (extents m).2.1, s * (extents m).2.2) := by
  simp only [extents, meshXs_applyScale, meshYs_applyScale, meshZs_applyScale,
    listMax_map_mul s hs, listMin_map_mul s hs, Prod.mk.injEq]
  exact ⟨by ring, by ring, by ring⟩

/-- C6: for a mesh with positive bounding-box extents and positive target
dimensions, `calculate_scale_factor` is the minimum of the three per-axis
ratios, and scaling the mesh by this single uniform factor gives extents
that do not exceed the target on any axis and equal the target on at least
one axis. -/
theorem C6_scale_factor_uniform_fit (m : Mesh) (t : Dims)
    (hex : 0 < (extents m).1) (hey : 0 < (extents m).2.1)
    (hez : 0 < (extents m).2.2) (htw : 0 < t.width) (htd : 0 < t.depth)
    (hth : 0 < t.height) :
    calculate_scale_factor m t =
      min (t.width / (extents m).1)
        (min (t.depth / (extents m).2.1) (t.height / (extents m).2.2)) ∧
    (extents (applyScale (calculate_scale_factor m t) m)).1 ≤ t.width ∧
    (extents (applyScale (calculate_scale_factor m t) m)).2.1 ≤ t.depth ∧
    (extents (applyScale (calculate_scale_factor m t) m)).2.2 ≤ t.height ∧
    ((extents (applyScale (calculate_scale_factor m t) m)).1 = t.width ∨
     (extents (applyScale (calculate_scale_factor m t) m)).2.1 = t.depth ∨
     (extents (applyScale (calculate_scale_factor m t) m)).2.2 = t.height) := by
  have hdef : calculate_scale_factor m t =
      min (t.width / (extents m).1)
        (min (t.depth / (extents m).2.1) (t.height / (extents m).2.2)) := rfl
  have hs0 : 0 ≤ calculate_scale_factor m t := by
    rw [hdef]
    exact le_of_lt (lt_min (div_pos htw hex)
      (lt_min (div_pos htd hey) (div_pos hth hez)))
  have hext := extents_applyScale (calculate_scale_factor m t) hs0 m
  have h1 : calculate_scale_factor m t ≤ t.width / (extents m).1 := by
    rw [hdef]; exact min_le_left _ _
  have h2 : calculate_scale_factor m t ≤ t.depth / (extents m).2.1 := by
    rw [hdef]; exact le_trans (min_le_right _ _) (min_le_left _ _)
  have h3 : calculate_scale_factor m t ≤ t.height / (extents m).2.2 := by
    rw [hdef]; exact le_trans (min_le_right _ _) (min_le_right _ _)
  refine ⟨hdef, ?_, ?_, ?_, ?_⟩
  · rw [hext]; exact (le_div_iff₀ hex).mp h1
  · rw [hext]; exact (le_div_iff₀ hey).mp h2
  · rw [hext]; exact (le_div_iff₀ hez).mp h3
  · rw [hext]
    rcases min_choice (t.width / (extents m).1)
        (min (t.depth / (extents m).2.1) (t.height / (extents m).2.2)) with
      hc | hc
    · left
      rw [hdef] at hext ⊢
      rw [hc, div_mul_cancel₀ _ (ne_of_gt hex)]
    · rcases min_choice (t.depth / (extents m).2.1)
          (t.height / (extents m).2.2) with hc2 | hc2
      · right; left
        rw [hdef, hc, hc2, div_mul_cancel₀ _ (ne_of_gt hey)]
      · right; right
        rw [hdef, hc, hc2, div_mul_cancel₀ _ (ne_of_gt hez)]

/-- Concrete mesh for the C6 witness: bounding box 2 × 1 × 4. -/
def meshW : Mesh := ⟨[(0, 0, 0), (2, 1, 4)], []⟩

/-- Concrete target dimensions for the C6 witness. -/
def dimsW : Dims := ⟨1, 1, 1⟩

/-- C6 witness: for the 2 × 1 × 4 box mesh and unit target dimensions the
extents are positive and the theorem's conclusion holds concretely. -/
theorem C6_scale_factor_uniform_fit_witness :
    0 < (extents meshW).1 ∧
    (calculate_scale_factor meshW dimsW =
      min (dimsW.width / (extents meshW).1)
        (min (dimsW.depth / (extents meshW).2.1)
          (dimsW.height / (extents meshW).2.2)) ∧
    (extents (applyScale (calculate_scale_factor meshW dimsW) meshW)).1 ≤
      dimsW.width ∧
    (extents (applyScale (calculate_scale_factor meshW dimsW) meshW)).2.1 ≤
      dimsW.depth ∧
    (extents (applyScale (calculate_scale_factor meshW dimsW) meshW)).2.2 ≤
      dimsW.height ∧
    ((extents (applyScale (calculate_scale_factor meshW dimsW) meshW)).1 =
        dimsW.width ∨
     (extents (applyScale (calculate_scale_factor meshW dimsW) meshW)).2.1 =
        dimsW.depth ∨
     (extents (applyScale (calculate_scale_factor meshW dimsW) meshW)).2.2 =
        dimsW.height)) := by
  have hE : extents meshW = (2, 1, 4) := by
    simp (disch := norm_num) [meshW, extents, meshXs, meshYs, meshZs,
      listMax, listMin, max_eq_right, min_eq_left]
  refine ⟨by rw [hE]; norm_num, ?_⟩
  exact C6_scale_factor_uniform_fit meshW dimsW
    (by rw [hE]; norm_num) (by rw [hE]; norm_num) (by rw [hE]; norm_num)
    (by norm_num [dimsW]) (by norm_num [dimsW]) (by norm_num [dimsW])

/-- x-coordinates of a translated mesh (shared helper). -/
theorem meshXs_applyTranslation (t : ℚ × ℚ × ℚ) (m : Mesh) :
    meshXs (applyTranslation t m) = (meshXs m).map (fun x => x + t.1) := by
  simp [meshXs, applyTranslation, List.map_map, Function.comp]

/-- y-coordinates of a translated mesh (shared helper). -/
theorem meshYs_applyTranslation (t : ℚ × ℚ × ℚ) (m : Mesh) :
    meshYs (applyTranslation t m) = (meshYs m).map (fun x => x + t.2.1) := by
  simp [meshYs, applyTranslation, List.map_map, Function.comp]

/-- z-coordinates of a translated mesh (shared helper). -/
theorem meshZs_applyTranslation (t : ℚ × ℚ × ℚ) (m : Mesh) :
    meshZs (applyTranslation t m) = (meshZs m).map (fun x => x + t.2.2) := by
  simp [meshZs, applyTranslation, List.map_map, Function.comp]

/-- Concrete mesh for the C7 counterexample and witness: its bounding-box
minimum corner is (1, 1, 1), away from the origin. -/
def meshW7 : Mesh := ⟨[(1, 1, 1), (2, 2, 2)], []⟩

/-- Concrete target dimensions for the C7 counterexample and witness. -/
def dimsW7 : Dims := ⟨1, 1, 1⟩

/-- C7 counterexample: for a mesh whose bounding-box minimum corner is
(1, 1, 1) and an item placed at (x, y) = (0, 0), the scaled-and-translated
mesh does NOT have its footprint minimum corner at (0, 0) nor its z-minimum
at 0 — the code translates BY (x, y, 0), it does not move the minimum
corner TO it. -/
theorem C7_counterexample :
    ¬ ((boundsMin (scaleAndPosition meshW7 dimsW7 ⟨0, 0⟩)).1 = 0 ∧
       (boundsMin (scaleAndPosition meshW7 dimsW7 ⟨0, 0⟩)).2.1 = 0 ∧
       (boundsMin (scaleAndPosition meshW7 dimsW7 ⟨0, 0⟩)).2.2 = 0) := by
  have hE : extents meshW7 = (1, 1, 1) := by
    simp (disch := norm_num) [meshW7, extents, meshXs, meshYs, meshZs,
      listMax, listMin, max_eq_right, min_eq_left]
    norm_num
  have hs : calculate_scale_factor meshW7 dimsW7 = 1 := by
    simp [calculate_scale_factor, hE, dimsW7]
  have hB : boundsMin (scaleAndPosition meshW7 dimsW7 ⟨0, 0⟩) = (1, 1, 1) := by
    simp only [scaleAndPosition, hs]
    simp (disch := norm_num) [meshW7, applyScale, applyTranslation, boundsMin,
      meshXs, meshYs, meshZs, listMin, min_eq_left]
  rw [hB]
  norm_num

/-- C7 (amended): the scale-and-position step translates the scaled mesh BY
the vector (x, y, 0): the minimum corner of the result is the scaled mesh's
minimum corner offset by (x, y, 0) — it sits at (x, y) with base z = 0 only
when the scaled mesh's minimum corner is the origin. -/
theorem C7_mesh_translated_by_position (m : Mesh) (d : Dims) (p : Pos)
    (h : m.vertices ≠ []) :
    boundsMin (scaleAndPosition m d p) =
      ((boundsMin (applyScale (calculate_scale_factor m d) m)).1 + p.x,
       (boundsMin (applyScale (calculate_scale_factor m d) m)).2.1 + p.y,
       (boundsMin (applyScale (calculate_scale_factor m d) m)).2.2 + 0) := by
  have hXne : meshXs (applyScale (calculate_scale_factor m d) m) ≠ [] := by
    simpa [meshXs, applyScale] using h
  have hYne : meshYs (applyScale (calculate_scale_factor m d) m) ≠ [] := by
    simpa [meshYs, applyScale] using h
  have hZne : meshZs (applyScale (calculate_scale_factor m d) m) ≠ [] := by
    simpa [meshZs, applyScale] using h
  simp only [scaleAndPosition, boundsMin, meshXs_applyTranslation,
    meshYs_applyTranslation, meshZs_applyTranslation]
  rw [listMin_map_add _ _ hXne, listMin_map_add _ _ hYne,
    listMin_map_add _ _ hZne]

/-- C7 witness for the amended statement: instantiated at the concrete mesh
with minimum corner (1, 1, 1), an item at (3, 4): the result's minimum
corner is the scaled minimum corner offset by (3, 4, 0). -/
theorem C7_mesh_translated_by_position_witness :
    boundsMin (scaleAndPosition meshW7 dimsW7 ⟨3, 4⟩) =
      ((boundsMin (applyScale (calculate_scale_factor meshW7 dimsW7) meshW7)).1
        + (3:ℚ),
       (boundsMin (applyScale (calculate_scale_factor meshW7 dimsW7) meshW7)).2.1
        + (4:ℚ),
       (boundsMin (applyScale (calculate_scale_factor meshW7 dimsW7) meshW7)).2.2
        + 0) :=
  C7_mesh_translated_by_position meshW7 dimsW7 ⟨3, 4⟩ (by simp [meshW7])

/-- A heap of mesh objects, with addresses as list indices: the explicit
store used to state the frame property of the in-place trimesh transforms. -/
abbrev Heap := List Mesh

/-- Read the mesh at an address (an empty mesh for a dangling address). -/
def heapRead (h : Heap) (a : ℕ) : Mesh := (h[a]?).getD ⟨[], []⟩

/-- Overwrite the mesh at an address (in-place mutation of that object). -/
def heapWrite (h : Heap) (a : ℕ) (m : Mesh) : Heap := h.set a m

/-- `mesh.copy()` of trimesh: an independent duplicate of the mesh's data
(same vertices and faces, fresh object). -/
def meshCopy (m : Mesh) : Mesh := ⟨m.vertices, m.faces⟩

/-- The scale-and-position block of `visualize_layouts_3d` (Page3.py lines
449-458) as heap steps: compute the scale factor from the source mesh,
allocate `scaled_mesh = mesh.copy()` as a fresh object, then mutate only
the copy in place with `apply_transform` (uniform scale) and
`apply_translation`.  Returns the heap after the block and the address of
the scaled, translated copy. -/
def renderMeshBlockHeap (h : Heap) (srcAddr : ℕ) (d : Dims) (p : Pos) :
    Heap × ℕ :=
  let src := heapRead h srcAddr
  let s := calculate_scale_factor src d
  let workAddr := h.length
  let h1 := h ++ [meshCopy src]
  let h2 := heapWrite h1 workAddr (applyScale s (heapRead h1 workAddr))
  let h3 := heapWrite h2 workAddr
    (applyTranslation (p.x, p.y, 0) (heapRead h2 workAddr))
  (h3, workAddr)

/-- C8: the scale-and-position block never mutates the source mesh: after
producing the scaled, translated copy, the source mesh's vertices and faces
(read back from its address) are unchanged. -/
theorem C8_source_mesh_unchanged (h : Heap) (srcAddr : ℕ) (d : Dims)
    (p : Pos) (hlt : srcAddr < h.length) :
    (heapRead (renderMeshBlockHeap h srcAddr d p).1 srcAddr).vertices =
      (heapRead h srcAddr).vertices ∧
    (heapRead (renderMeshBlockHeap h srcAddr d p).1 srcAddr).faces =
      (heapRead h srcAddr).faces := by
  have hne : h.length ≠ srcAddr := (ne_of_lt hlt).symm
  have hmesh : heapRead (renderMeshBlockHeap h srcAddr d p).1 srcAddr =
      heapRead h srcAddr := by
    simp only [renderMeshBlockHeap, heapRead, heapWrite]
    rw [List.getElem?_set_ne hne, List.getElem?_set_ne hne,
      List.getElem?_append_left hlt]
  exact ⟨congrArg Mesh.vertices hmesh, congrArg Mesh.faces hmesh⟩

/-- Concrete one-mesh heap for the C8 witness. -/
def heapW : Heap := [⟨[(0, 0, 0), (1, 2, 3)], [(0, 1, 2)]⟩]

/-- C8 witness: on the concrete one-mesh heap, address 0 is valid and after
the block the source mesh at address 0 still has its original vertices and
faces. -/
theorem C8_source_mesh_unchanged_witness :
    0 < heapW.length ∧
    ((heapRead (renderMeshBlockHeap heapW 0 ⟨1, 1, 1⟩ ⟨2, 3⟩).1 0).vertices =
      (heapRead heapW 0).vertices ∧
    (heapRead (renderMeshBlockHeap heapW 0 ⟨1, 1, 1⟩ ⟨2, 3⟩).1 0).faces =
      (heapRead heapW 0).faces) :=
  ⟨by decide, C8_source_mesh_unchanged heapW 0 ⟨1, 1, 1⟩ ⟨2, 3⟩ (by decide)⟩

end DesignTool
